import Mathlib

set_option maxRecDepth 8000

/-!
Shallow embedding of the core of `rpmbuild-bot2.py` (RPM Build Bot 2), the
single source file of this repository, together with theorems settling the
frozen claims about it.  Line numbers in doc comments refer to
`src/rpmbuild-bot2.py`.
-/

namespace RpmbuildBot2

/-! ## Character and string helpers shared by the embedding -/

/-- Decidable equality for `Except`, used to evaluate the models on concrete
inputs. -/
instance instDecEqExcept {ε α : Type} [DecidableEq ε] [DecidableEq α] :
    DecidableEq (Except ε α) := fun a b =>
  match a, b with
  | .ok x, .ok y =>
    if h : x = y then isTrue (congrArg Except.ok h)
    else isFalse (fun hc => h (Except.ok.inj hc))
  | .error x, .error y =>
    if h : x = y then isTrue (congrArg Except.error h)
    else isFalse (fun hc => h (Except.error.inj hc))
  | .ok _, .error _ => isFalse (fun hc => Except.noConfusion hc)
  | .error _, .ok _ => isFalse (fun hc => Except.noConfusion hc)

/-- Python regex `\w` word characters used by the interpolation pattern at
line 78 (`re` without `re.ASCII` also accepts unicode alphanumerics, which
`Char.isAlphanum` approximates). -/
def isWordChar (c : Char) : Bool := c.isAlphanum || c == '_'

/-- Maximal run of word characters at the head of the list, with the rest.
Backtracking of `\w+` followed by a non-word literal can only succeed on the
maximal run, so this captures the regex engine's behaviour. -/
def takeWord (cs : List Char) : List Char × List Char :=
  match cs with
  | [] => ([], [])
  | c :: rest =>
    if isWordChar c then
      let p := takeWord rest
      (c :: p.1, p.2)
    else ([], c :: rest)

/-- Python whitespace stripped by `str.strip ()`. -/
def isPySpace (c : Char) : Bool :=
  c == ' ' || c == '\t' || c == '\n' || c == '\r' || c == '\x0b' || c == '\x0c'

/-- `str.strip ()` (used on interpolation substitution results, lines 86, 89). -/
def pyStrip (s : String) : String :=
  String.mk (((s.data.dropWhile isPySpace).reverse.dropWhile isPySpace).reverse)

/-- One step of Python `str.replace`: replace each non-overlapping occurrence
of `pat` (never empty at the call sites) left to right.  Fuel is the length of
the subject plus one; every step consumes at least one character. -/
def pyReplaceGo : Nat → List Char → List Char → List Char → List Char
  | 0, _, _, cs => cs
  | fuel + 1, pat, new, cs =>
    if pat.isPrefixOf cs then new ++ pyReplaceGo fuel pat new (cs.drop pat.length)
    else
      match cs with
      | [] => []
      | c :: rest => c :: pyReplaceGo fuel pat new rest

/-- Python `str.replace (pat, new)` (line 95). -/
def pyReplace (s pat new : String) : String :=
  String.mk (pyReplaceGo (s.data.length + 1) pat.data new.data s.data)

/-- `' '.join (command)` applied to a Python *string*, as `shell_output` does
at line 312: joining a string interleaves its characters with spaces. -/
def joinChars (s : String) : String :=
  String.intercalate " " (s.data.map (fun c => String.mk [c]))

/-! ## The interpolation pattern of `Config.get`

`re.findall (r'\$\{(\w+:)?((?<=SHELL:).+|\w+)\}', ret)` at line 78 scans
`ret` left to right for `${...}` placeholders and yields, per match, the pair
(prefix group such as `"ENV:"`/`"SHELL:"`/`"RPM:"`/`""`, name or shell
command).  The lookbehind `(?<=SHELL:)` succeeds exactly when the prefix
group's text ends with `SHELL:`; the greedy `.+` then runs to the last `}` on
the same line that leaves it non-empty. -/

/-- Index of the last `'\x7d'` in a line segment, if any. -/
def lastBraceIdx (seg : List Char) : Option Nat :=
  match seg.reverse.findIdx? (fun c => c == '}') with
  | some k => some (seg.length - 1 - k)
  | none => none

/-- The `(?<=SHELL:).+\}` alternative: take everything (no newline) up to the
last closing brace that leaves a non-empty body; return body and rest. -/
def shellBody (cs : List Char) : Option (List Char × List Char) :=
  let seg := cs.takeWhile (fun c => c != '\n')
  let rest0 := cs.drop seg.length
  match lastBraceIdx seg with
  | some j => if 1 ≤ j then some (seg.take j, seg.drop (j + 1) ++ rest0) else none
  | none => none

/-- The `\w+\}` tail: a non-empty word run immediately followed by `'\x7d'`. -/
def wordThenClose (cs : List Char) : Option (List Char × List Char) :=
  let p := takeWord cs
  match p.2 with
  | '}' :: rest => if p.1.isEmpty then none else some (p.1, rest)
  | _ => none

/-- Does the word run end with `SHELL` (so that the prefix group's text ends
with `SHELL:` and the lookbehind succeeds)? -/
def endsWithSHELL (w : List Char) : Bool := List.isSuffixOf ("SHELL".data) w

/-- Attempt a regex match directly after an opening `"$\x7b"`; returns the two
groups and the remaining input.  Mirrors the backtracking of
`(\w+:)?((?<=SHELL:).+|\w+)\}`: the optional prefix group can only be the
maximal word run followed by `':'`, and if the body fails under it, the
prefix-absent alternative also fails (the run is then followed by `':'`,
not `'\x7d'`). -/
def matchAfterBrace (cs : List Char) : Option ((String × String) × List Char) :=
  match takeWord cs with
  | (w, ':' :: r2) =>
    if w.isEmpty then
      match wordThenClose cs with
      | some (g2, rest) => some (("", String.mk g2), rest)
      | none => none
    else
      let g1 := String.mk (w ++ [':'])
      if endsWithSHELL w then
        match shellBody r2 with
        | some (body, rest) => some ((g1, String.mk body), rest)
        | none =>
          match wordThenClose r2 with
          | some (g2, rest) => some ((g1, String.mk g2), rest)
          | none => none
      else
        match wordThenClose r2 with
        | some (g2, rest) => some ((g1, String.mk g2), rest)
        | none => none
  | (_, _) =>
    match wordThenClose cs with
    | some (g2, rest) => some (("", String.mk g2), rest)
    | none => none

/-- Left-to-right non-overlapping scan of `re.findall`; fuel is the input
length plus one (each step consumes at least one character). -/
def findallGo : Nat → List Char → List (String × String)
  | 0, _ => []
  | _ + 1, [] => []
  | fuel + 1, '$' :: '{' :: cs =>
    (match matchAfterBrace cs with
     | some (m, rest) => m :: findallGo fuel rest
     | none => findallGo fuel ('{' :: cs))
  | fuel + 1, _ :: cs => findallGo fuel cs

/-- `re.findall (r'\$\{(\w+:)?((?<=SHELL:).+|\w+)\}', ret)` of line 78. -/
def findall (s : String) : List (String × String) :=
  findallGo (s.data.length + 1) s.data

/-! ## The `Config` class (lines 51-110)

`Config` extends `ConfigParser.SafeConfigParser`.  Its `get` resolves the four
placeholder kinds, incrementing the instance counter `get_depth` once per
match and decrementing it once after the loop; the recursion on plain
placeholders is modelled with explicit fuel, `GetRes.fuelOut` marking fuel
exhaustion (which the termination theorem shows unreachable for enough fuel).
The process-wide RPM macro cache `rpm_macros` (`g_rpm`, line 1135) is kept in
the state together with the ghost trace `rpmCalls` recording each invocation
of the external builder via `command_output` (line 89). -/

/-- Outcome of `subprocess.check_output`: normal output, a
`CalledProcessError` carrying the non-zero exit code, or an `OSError` (the
process could not start).  `command_output` (lines 292-296) and
`shell_output` (lines 308-312) catch only `OSError`, converting it to
`RunError`; a `CalledProcessError` propagates out of them uncaught. -/
inductive CmdOutcome where
  | ok (out : String)
  | calledProcessError (rc : Int)
  | osError (msg : String)
deriving DecidableEq, Repr

/-- The external world a `Config.get` call interacts with: the stored raw
values (`SafeConfigParser.get` with `raw = True`, line 74, `none` meaning a
`NoSectionError`/`NoOptionError`), `os.environ.get`, the shell, and
`rpmbuild --eval`. -/
structure Ctx where
  raw : String → String → Option String
  env : String → Option String
  shell : String → CmdOutcome
  rpmEval : String → CmdOutcome

/-- Mutable state touched by `Config.get`: the per-instance resolution depth
counter `get_depth` (line 55, a Python int, so it may go negative), the
shared macro cache `rpm_macros` (line 56), and the ghost list `rpmCalls` of
macro names for which the external builder was actually invoked. -/
structure St where
  get_depth : Int
  rpm_macros : List (String × String)
  rpmCalls : List String
deriving DecidableEq, Repr

/-- Result of a `Config.get` call: the resolved string, or the exception that
escapes it.  `noOption` is `ConfigParser.NoOptionError` (raised by the base
class for a missing key, and at line 84 for an unset/empty environment
variable); `interpErr` is `ConfigParser.InterpolationError` (lines 97-98);
`depthErr` is `ConfigParser.InterpolationDepthError (option, section, ret)`
(line 100); `calledProcessError` is an uncaught
`subprocess.CalledProcessError`; `fuelOut` marks model fuel exhaustion. -/
inductive GetRes where
  | ok (v : String)
  | noOption (opt sec : String)
  | interpErr (sec opt msg : String)
  | depthErr (opt sec : String)
  | calledProcessError (rc : Int)
  | fuelOut
deriving DecidableEq, Repr

/-- `ConfigParser.MAX_INTERPOLATION_DEPTH` (Python 2 value 10), compared
against at line 80. -/
def MAX_INTERPOLATION_DEPTH : Int := 10

/-- The literal placeholder text `'${{{0}{1}}}'.format (f_section, f_option)`
substituted away at line 95. -/
def placeholderText (fs fo : String) : String := "$\x7b" ++ fs ++ fo ++ "\x7d"

/-- The `InterpolationError` message built at lines 97-98 from a `RunError`. -/
def interpFailMsg (fs fo emsg ecmd : String) : String :=
  "Failed to interpolate $\x7b" ++ fs ++ fo ++ "\x7d:\nThe following command failed with: "
    ++ emsg ++ ":\n  " ++ ecmd

/-- `' '.join (command)` for the `command_output` invocation
`[RPMBUILD_EXE, '--eval', '%%{?%s}' % f_option]` at line 89. -/
def rpmEvalCmdLine (fo : String) : String := "rpmbuild.exe --eval %\x7b?" ++ fo ++ "\x7d"

/-- Resolution of one placeholder match, the body of the `for` loop at lines
81-98 minus the depth bookkeeping: environment (lines 82-84), shell
(lines 85-86), RPM macro with cache (lines 87-92), and the plain recursive
case (lines 93-94), where the recursive `self.get` is abstracted as `getFn`
(instantiated with `Config.get` at one less fuel). -/
def resolveOne (ctx : Ctx) (getFn : St → String → String → GetRes × St)
    (sec opt fs fo : String) (st : St) : GetRes × St :=
  if fs == "ENV:" then
    match ctx.env fo with
    | some v => if v == "" then (.noOption fo "ENV", st) else (.ok v, st)
    | none => (.noOption fo "ENV", st)
  else if fs == "SHELL:" then
    match ctx.shell fo with
    | .ok out => (.ok (pyStrip out), st)
    | .calledProcessError rc => (.calledProcessError rc, st)
    | .osError m => (.interpErr sec opt (interpFailMsg fs fo m (joinChars fo)), st)
  else if fs == "RPM:" then
    match st.rpm_macros.lookup fo with
    | some v => (.ok v, st)
    | none =>
      let st1 : St := { st with rpmCalls := st.rpmCalls ++ [fo] }
      match ctx.rpmEval fo with
      | .ok out =>
        let sub := pyStrip out
        (.ok sub, { st1 with rpm_macros := st1.rpm_macros ++ [(fo, sub)] })
      | .calledProcessError rc => (.calledProcessError rc, st1)
      | .osError m => (.interpErr sec opt (interpFailMsg fs fo m (rpmEvalCmdLine fo)), st1)
  else
    getFn st (if fs == "" then sec else String.mk fs.data.dropLast) fo

/-- The `for f_section, f_option in re.findall (...)` loop of lines 78-102:
per match, increment `get_depth`, check it against the maximum (line 80,
raising `InterpolationDepthError` at line 100 otherwise), resolve, substitute
the result into `ret` (line 95); after the loop, decrement `get_depth` once
(line 102) and return `ret`.  Any exception from a match propagates without
the decrement. -/
def interpLoopWith (ctx : Ctx) (getFn : St → String → String → GetRes × St)
    (sec opt : String) : List (String × String) → St → String → GetRes × St
  | [], st, ret => (.ok ret, { st with get_depth := st.get_depth - 1 })
  | (fs, fo) :: rest, st, ret =>
    let st1 : St := { st with get_depth := st.get_depth + 1 }
    if st1.get_depth < MAX_INTERPOLATION_DEPTH then
      match resolveOne ctx getFn sec opt fs fo st1 with
      | (.ok sub, st2) =>
        interpLoopWith ctx getFn sec opt rest st2 (pyReplace ret (placeholderText fs fo) sub)
      | (r, st2) => (r, st2)
    else (.depthErr opt sec, st1)

/-- `Config.get` (lines 69-103): fetch the raw value, then run the
interpolation loop over its placeholder matches.  The explicit fuel bounds
the plain-placeholder recursion of line 94; `configGet_no_fuelOut` below
shows any fuel at least `11 - get_depth` is enough. -/
def Config.get (ctx : Ctx) : Nat → St → String → String → GetRes × St
  | 0, st, _, _ => (.fuelOut, st)
  | fuel + 1, st, sec, opt =>
    match ctx.raw sec opt with
    | none => (.noOption opt sec, st)
    | some ret => interpLoopWith ctx (Config.get ctx fuel) sec opt (findall ret) st ret

/-- One run-level event: a `Config.get` call (stopping the run if it raises,
as all callers let errors propagate to the top-level handler, lines
1264-1295), or `copy.deepcopy (g_config)` (lines 59-67, 803, 942, 987), which
builds a fresh `Config` (`get_depth` back to `0`, line 55) sharing the same
`rpm_macros` dictionary by reference (lines 61-62). -/
inductive RunEvent where
  | get (sec opt : String)
  | deepcopy
deriving DecidableEq, Repr

/-- Execution of a sequence of run events threading the shared state. -/
def runEvents (ctx : Ctx) (fuel : Nat) : St → List RunEvent → St
  | st, [] => st
  | st, .deepcopy :: rest => runEvents ctx fuel { st with get_depth := 0 } rest
  | st, .get sec opt :: rest =>
    match Config.get ctx fuel st sec opt with
    | (.ok _, st') => runEvents ctx fuel st' rest
    | (_, st') => st'

/-! ## The `Error` exception class (lines 125-131)

`Error.__init__ (self, prefix, msg = None, hint = None)`. -/

/-- The fields of an `Error` instance; `pfx` is the source's `prefix`
attribute.  A one-argument construction `Error (x)` yields
`⟨none, x, none⟩`, a two-argument one `Error (p, m)` yields
`⟨some p, m, none⟩` (lines 128-130). -/
structure PyError where
  pfx : Option String
  msg : String
  hint : Option String
deriving DecidableEq, Repr

/-- The keyword parameters accepted by `Error.__init__` (line 127).  `RunError`
additionally accepts `log_file` (line 142), but plain `Error` does not. -/
def errorInitParamNames : List String := ["prefix", "msg", "hint"]

/-- Python keyword-argument checking for a call to `Error.__init__`: the first
keyword not in the parameter list triggers a `TypeError` (unexpected keyword
argument); otherwise the call succeeds. -/
def errorInitBadKeyword (kwargs : List String) : Option String :=
  kwargs.find? (fun k => !(errorInitParamNames.contains k))

/-! ## `run_pipe` exit-status bookkeeping (lines 332-409)

For a pipeline in which every process spawns, `run_pipe` executes

    rc = 0
    ...
    if len (commands) > 1:
      rc = last_proc.wait ()     -- line 394, see the TODO at lines 389-393
    rc = proc.wait ()            -- line 396; proc is commands[0]'s process
    ...
    finally:
      if rc:
        raise RunError (' '.join (cmd), msg)

so the value of `rc` that decides failure is the exit status of the *first*
command; the last command's status is collected and then overwritten. -/

/-- The final `rc` of `run_pipe` as a function of the exit statuses of the
pipeline's processes: `first` for `commands[0]` (`proc`), `rest` for
`commands[1:]` (whose last entry is `last_proc`).  The intermediate
assignments mirror the source's dead store of `last_proc.wait ()`. -/
def runPipeRc (first : Int) (rest : List Int) : Int :=
  let rc0 : Int := 0
  let rc1 : Int := if 1 + rest.length > 1 then rest.getLastD rc0 else rc0
  let rc2 : Int := first
  rc2

/-- Whether `run_pipe` raises `RunError` (`if rc:` at line 406). -/
def runPipeRaises (first : Int) (rest : List Int) : Bool :=
  runPipeRc first rest != 0

/-! ## `run_pipe_log` (lines 429-460) -/

/-- The fields of a `RunError` relevant to `run_pipe_log`'s handler
(lines 442-446). -/
structure RunErrorData where
  cmd : String
  msg : String
deriving DecidableEq, Repr

/-- `' '.join (c)` for an argv list. -/
def joinCmd (c : List String) : String := String.intercalate " " c

/-- `' | '.join (' '.join (c) for c in commands)` (line 434). -/
def joinPipeline (cmds : List (List String)) : String :=
  String.intercalate " | " (cmds.map joinCmd)

/-- What escapes `run_pipe_log` on the failure path: at lines 455-458 it
executes `raise Error (..., log_file = log_file)`, but `Error.__init__`
(line 127) has no `log_file` parameter, so constructing the exception itself
raises a `TypeError` (unexpected keyword argument). -/
inductive RunPipeLogOutcome where
  | ok (lines : List String)
  | raisedError (e : PyError)
  | typeErrorUnexpectedKeyword (kw : String)
deriving DecidableEq, Repr

/-- `run_pipe_log (log_file, commands, regex)` modelled over the outcome of
the inner `run_pipe` call.  Timestamps and the elapsed time are inputs (the
embedding does not model wall clocks).  Returns the lines written to the log
file in order, and the outcome.  On success the log gets the bracketed start
line (line 434) and end line (line 452); on failure the same two lines are
written (the end line from the `finally` block) and then the `raise Error`
of lines 455-458 is attempted with keyword `log_file`. -/
def run_pipe_log (startTs endTs elapsed : String) (cmds : List (List String))
    (pipeResult : Except RunErrorData (List String)) : List String × RunPipeLogOutcome :=
  let startLine := "[" ++ startTs ++ ", " ++ joinPipeline cmds ++ "]"
  match pipeResult with
  | .ok lines =>
    let msg := "exit code 0"
    let endLine := "[" ++ endTs ++ ", " ++ msg ++ ", " ++ elapsed ++ " s]"
    ([startLine, endLine], .ok lines)
  | .error e =>
    let msg := e.msg
    let endLine := "[" ++ endTs ++ ", " ++ msg ++ ", " ++ elapsed ++ " s]"
    match errorInitBadKeyword ["log_file"] with
    | some kw => ([startLine, endLine], .typeErrorUnexpectedKeyword kw)
    | none =>
      ([startLine, endLine],
       .raisedError ⟨none,
         "The following command failed with: " ++ msg ++ ":\n  " ++ joinChars e.cmd, none⟩)

/-! ## `read_build_summary` artifact checking (lines 716-774)

The per-artifact loop at lines 740-759 re-stats every recorded file and
compares mtime and size, raising `Error` on mismatch; a missing file makes
`os.path.getmtime` raise `OSError`, converted at lines 761-762 into an
`Error` whose message is `str (e)`. -/

/-- Result of `os.path.getmtime`/`os.path.getsize` for one path (`none` when
the file is missing). -/
structure FileStat where
  mtime : Int
  size : Int
deriving DecidableEq, Repr

/-- One parsed artifact line `arch|name|mtime|size` (lines 743-745). -/
structure ArtLine where
  arch : String
  name : String
  mtime : Int
  size : Int
deriving DecidableEq, Repr

/-- A value of the artifact dict `d` built by `read_build_summary`
(lines 753-759): a single path for `srpm`/`zip`, a path list per arch. -/
inductive SummaryVal where
  | one (path : String)
  | many (paths : List String)
deriving DecidableEq, Repr

/-- Insertion into the dict `d` as done at lines 753-759. -/
def summaryDictInsert (d : List (String × SummaryVal)) (arch path : String) :
    List (String × SummaryVal) :=
  match d with
  | [] =>
    if arch == "srpm" || arch == "zip" then [(arch, .one path)] else [(arch, .many [path])]
  | (k, v) :: rest =>
    if k == arch then
      if arch == "srpm" || arch == "zip" then (k, .one path) :: rest
      else
        match v with
        | .many ps => (k, .many (ps ++ [path])) :: rest
        | .one p => (k, .many [p, path]) :: rest
    else (k, v) :: summaryDictInsert rest arch path

/-- The artifact-checking loop of `read_build_summary` (lines 740-762): `ln`
starts at 2 and is incremented per line; `resolvePath` abstracts
`resolve_path (name, arch, repo, group_config)` (lines 680-687); `stat` is
the filesystem.  On an mtime or size mismatch the source raises
`Error ('%s:%s' % (summary, ln), '\nRecorded ... differs from actual for
`%s`')` — note the second argument is a *literal* format string, never
`%`-formatted with the path.  A missing file raises `OSError`, converted to
`Error ('%s:%s:\n%s' % (summary, ln, str (e)))`. -/
def checkArtifactLines (summary : String) (stat : String → Option FileStat)
    (resolvePath : String → String → String) :
    Nat → List (String × SummaryVal) → List ArtLine → Except PyError (Nat × List (String × SummaryVal))
  | ln, d, [] => .ok (ln, d)
  | ln, d, a :: rest =>
    let ln' := ln + 1
    let path := resolvePath a.name a.arch
    match stat path with
    | none =>
      .error ⟨none,
        summary ++ ":" ++ toString ln' ++ ":\n[Errno 2] No such file or directory: " ++ path,
        none⟩
    | some fdata =>
      if fdata.mtime != a.mtime then
        .error ⟨some (summary ++ ":" ++ toString ln'),
          "\nRecorded mtime differs from actual for `%s`", none⟩
      else if fdata.size != a.size then
        .error ⟨some (summary ++ ":" ++ toString ln'),
          "\nRecorded size differs from actual for `%s`", none⟩
      else checkArtifactLines summary stat resolvePath ln' (summaryDictInsert d a.arch path) rest

/-! ## `build_cmd` summary staging (lines 799-919)

The filesystem effects of one `build_cmd` iteration that touch the summary
path `log_base/summary` and its staging path `log_base/summary.tmp`, in
source order:

1. lines 812-820: read the existing summary for the force check (no write);
2. line 822: `remove_path (log_base)` — deletes the whole log directory,
   including any previous summary;
3. line 823: `ensure_dir (log_base)`;
4. lines 825-901: run the builds (logs and artifacts, no summary writes);
5. lines 908-915: write the new content to `summary + '.tmp'`, stat'ing every
   artifact (`file_data`, lines 905-906) — a missing artifact raises here;
6. line 918: `os.rename ('%s.tmp' % summary, summary)`.

A crash at any point executes only a prefix of this sequence. -/

/-- Filesystem state relevant to the summary commit protocol. -/
structure SummaryFS where
  summaryFile : Option (List String)
  tmpFile : Option (List String)
  artifactsBuilt : Bool
deriving DecidableEq, Repr

/-- The six summary-relevant steps of `build_cmd`, in source order. -/
inductive BuildStep where
  | checkExisting
  | removeLogBase
  | ensureLogBase
  | buildArtifacts
  | writeTmp
  | renameTmp
deriving DecidableEq, Repr

/-- Effect of one `build_cmd` step on the summary-relevant filesystem state.
`removeLogBase` removes both the summary and any stale tmp file (both live
inside `log_base`); `writeTmp` only completes when every artifact can be
stat'ed; `renameTmp` atomically replaces the summary with the tmp content. -/
def applyBuildStep (newContent : List String) (fs : SummaryFS) : BuildStep → SummaryFS
  | .checkExisting => fs
  | .removeLogBase => { fs with summaryFile := none, tmpFile := none }
  | .ensureLogBase => fs
  | .buildArtifacts => { fs with artifactsBuilt := true }
  | .writeTmp => if fs.artifactsBuilt then { fs with tmpFile := some newContent } else fs
  | .renameTmp =>
    match fs.tmpFile with
    | some c => { fs with summaryFile := some c, tmpFile := none }
    | none => fs

/-- The step sequence of one `build_cmd` iteration. -/
def buildStepSeq : List BuildStep :=
  [.checkExisting, .removeLogBase, .ensureLogBase, .buildArtifacts, .writeTmp, .renameTmp]

/-- Filesystem state after executing the first `k` steps of `build_cmd`
(a crash after step `k` leaves exactly this state). -/
def buildAfter (newContent : List String) (fs0 : SummaryFS) (k : Nat) : SummaryFS :=
  (buildStepSeq.take k).foldl (applyBuildStep newContent) fs0

/-! ## `move_cmd` repository resolution (lines 976-1020)

`move_cmd` parses `GROUP[:TO[:FROM]]` (line 990).  For the `upload` command
an explicit FROM is rejected (lines 992-995) and `from_repo` stays `None`
(the local build area); for a non-`upload` command the function has already
raised `Error ('Not implemented!')` at lines 980-982, so the code below is
only reachable in the model.  Lines 1000-1004 scan the group for a summary
*without breaking*, so the last repository with a summary wins; lines
1009-1017 resolve the default destination, where the guard
`if i < len (repos)` (line 1012) is always true for a valid index, making
`repos [i + 1]` raise `IndexError` when `from_repo` is the last repository —
the `Error ('No repository after ...')` branch (line 1015) is unreachable. -/

/-- Outcome of the from/to resolution: success, a raised `Error` with its
message, or an uncaught Python `IndexError` from `repos [i + 1]`. -/
inductive ResolveOutcome where
  | ok (fromRepo : Option String) (toRepo : String)
  | err (msg : String)
  | indexError
deriving DecidableEq, Repr

/-- The from/to resolution of `move_cmd` (lines 992-1020) over the repository
list of the group, the summary-existence predicate used by the scan at line
1003 (`os.path.isfile (.../summary)`), and the parsed TO/FROM arguments
(`none` models Python's falsy `None`/empty string). -/
def resolveFromTo (isUpload : Bool) (repos : List String) (hasSummary : String → Bool)
    (toArg fromArg : Option String) : ResolveOutcome :=
  if isUpload && fromArg.isSome then
    .err ("Extra input in GROUP spec: `" ++ fromArg.getD "" ++ "`")
  else
    let fromRepo : Option String :=
      if !isUpload && fromArg.isNone then
        repos.foldl (fun acc r => if hasSummary r then some r else acc) fromArg
      else fromArg
    if fromRepo.isSome && !(repos.contains (fromRepo.getD "")) then
      .err ("No repository `" ++ fromRepo.getD "" ++ "` in group")
    else
      let toRes : Except ResolveOutcome String :=
        match toArg with
        | some t => .ok t
        | none =>
          match fromRepo with
          | some f =>
            let i := repos.indexOf f
            if i < repos.length then
              match repos[i + 1]? with
              | some t => .ok t
              | none => .error .indexError
            else .error (.err ("No repository after `" ++ f ++ "` in group"))
          | none =>
            match repos[0]? with
            | some t => .ok t
            | none => .error .indexError
      match toRes with
      | .error e => e
      | .ok t =>
        if !(repos.contains t) then .err ("No repository `" ++ t ++ "` in group")
        else .ok fromRepo t

/-! ## `move_cmd` artifact copying (lines 1045-1063)

The copy loop `for src, dst in rpms_to_copy:` at lines 1059-1063 is indented
*inside* the key loop `for arch in rpms.keys ():` of line 1049, so after each
key iteration the whole accumulated `rpms_to_copy` list is copied again. -/

/-- Destination for the artifacts of one key of the summary dict: `srpm` and
`zip` go to `to_repo_config [arch]`, every other key to
`os.path.join (to_repo_config ['rpm'], arch)` (lines 1050-1057). -/
def archCopyEntries (toRepoCfg : String → String) (arch : String) (v : SummaryVal) :
    List (String × String) :=
  let dst := if arch == "srpm" || arch == "zip" then toRepoCfg arch
             else toRepoCfg "rpm" ++ "/" ++ arch
  (match v with
   | .one p => [p]
   | .many ps => ps).map (fun s => (s, dst))

/-- The sequence of `(src, dst)` pairs actually passed to `shutil.copy2`, in
order, for the given iteration order of `rpms.keys ()`: per key, the new
entries are appended to the accumulator (lines 1050-1057) and then the *whole*
accumulator is traversed by the mis-indented copy loop (lines 1059-1063). -/
def moveCopySequence (toRepoCfg : String → String) :
    List (String × SummaryVal) → List (String × String) → List (String × String)
  | [], _acc => []
  | (arch, v) :: rest, acc =>
    let acc' := acc ++ archCopyEntries toRepoCfg arch v
    acc' ++ moveCopySequence toRepoCfg rest acc'

/-- All copy operations performed by the copy phase of `move_cmd`. -/
def moveCopies (toRepoCfg : String → String) (rpms : List (String × SummaryVal)) :
    List (String × String) :=
  moveCopySequence toRepoCfg rpms []

/-- Execution of the copy operations with the destination-directory check of
lines 1061-1062: each copy first requires `os.path.isdir (dst)` and raises
`Error (dst, 'Not a directory')` otherwise; directories are never created
here.  Returns the copies performed on success. -/
def performCopies (isdir : String → Bool) :
    List (String × String) → Except PyError (List (String × String))
  | [] => .ok []
  | (src, dst) :: rest =>
    if isdir dst then
      match performCopies isdir rest with
      | .ok done => .ok ((src, dst) :: done)
      | .error e => .error e
    else .error ⟨some dst, "Not a directory", none⟩

/-! ## Invariants and concrete fixtures used by the theorems -/

/-- Invariant relating the ghost invocation trace to the macro cache: every
macro name whose invocation has been recorded is present in the cache.  It
can only fail transiently, when `command_output` at line 89 raises and the
assignment at line 90 is skipped — and then the whole run stops. -/
def RpmCalledCached (name : String) (st : St) : Prop :=
  name ∈ st.rpmCalls → (st.rpm_macros.lookup name).isSome

/-- Fixture: a configuration whose only value `s:k` is the placeholder-free
string `abc`. -/
def ctxPlain : Ctx :=
  { raw := fun s o => if s == "s" && o == "k" then some "abc" else none,
    env := fun _ => none, shell := fun _ => .osError "no", rpmEval := fun _ => .osError "no" }

/-- Fixture: a configuration whose value `sec:self` is the directly
self-referencing placeholder `${self}`. -/
def ctxSelf : Ctx :=
  { raw := fun s o => if s == "sec" && o == "self" then some "$\x7bself\x7d" else none,
    env := fun _ => none, shell := fun _ => .osError "no", rpmEval := fun _ => .osError "no" }

/-- Fixture: value `s:k` is `${SHELL:boom}` and the shell command `boom`
exits with status 3 (`subprocess.check_output` raises
`CalledProcessError`). -/
def ctxShellCpe : Ctx :=
  { raw := fun s o => if s == "s" && o == "k" then some "$\x7bSHELL:boom\x7d" else none,
    env := fun _ => none,
    shell := fun c => if c == "boom" then .calledProcessError 3 else .osError "no",
    rpmEval := fun _ => .osError "no" }

/-- Fixture: value `s:k` is `${SHELL:boom}` and the shell command cannot
start (`OSError`). -/
def ctxShellOs : Ctx :=
  { raw := fun s o => if s == "s" && o == "k" then some "$\x7bSHELL:boom\x7d" else none,
    env := fun _ => none,
    shell := fun c => if c == "boom" then .osError "cannot start" else .osError "no",
    rpmEval := fun _ => .osError "no" }

/-- Fixture: value `s:k` is `${RPM:m}` and the builder evaluates macro `m`
to the empty string. -/
def ctxRpmEmpty : Ctx :=
  { raw := fun s o => if s == "s" && o == "k" then some "$\x7bRPM:m\x7d" else none,
    env := fun _ => none, shell := fun _ => .osError "no",
    rpmEval := fun n => if n == "m" then .ok "" else .osError "no" }

/-- Fixture: content of a previously existing build summary. -/
def cOldSummary : List String := ["0.9-1.oc00", "u@h|100", "srpm|old.src.rpm|1|2"]

/-- Fixture: content of the summary written by the current build. -/
def cNewSummary : List String := ["1.0-1.oc00", "u@h|200", "srpm|new.src.rpm|3|4"]

/-- Fixture: initial filesystem state for `build_cmd` with a previous summary
in place. -/
def cBuildFS0 : SummaryFS := ⟨some cOldSummary, none, false⟩

/-- Fixture: the on-disk stat of the only artifact of the summary used by the
`read_build_summary` theorems. -/
def cStat : String → Option FileStat :=
  fun p => if p == "repo/rpm/os2/x.rpm" then some ⟨100, 5⟩ else none

/-- Fixture: `resolve_path` for a flat repository layout. -/
def cResolvePath : String → String → String :=
  fun n a => "repo/rpm/" ++ a ++ "/" ++ n

/-- Fixture: destination layout of the target repository for `move_cmd`. -/
def cToRepoCfg : String → String := fun k => "/to/" ++ k

/-- Fixture: a summary artifact dict in `rpms.keys ()` iteration order, with
a source RPM, a zip, and one target-specific RPM. -/
def cRpms : List (String × SummaryVal) :=
  [("srpm", .one "S.src.rpm"), ("zip", .one "Z.zip"), ("os2", .many ["A.os2.rpm"])]

/-! ## Helper lemmas -/

/-- `List.lookup` distributes over append. -/
theorem lookup_append (l1 l2 : List (String × String)) (k : String) :
    (l1 ++ l2).lookup k = ((l1.lookup k).or (l2.lookup k)) := by
  induction l1 with
  | nil => simp [List.lookup]
  | cons p rest ih =>
    obtain ⟨a, b⟩ := p
    by_cases h : k == a
    · simp [List.lookup, h]
    · simp only [List.cons_append, List.lookup]
      rw [Bool.not_eq_true] at h
      simp [h, ih]

/-- Recording one builder invocation keeps the per-name invocation count at
most one, because an invocation only happens for a name absent from the
cache, and (by `RpmCalledCached`) such a name was never invoked before. -/
theorem count_calls_append (st : St) (fo name : String)
    (hnone : st.rpm_macros.lookup fo = none)
    (h1 : st.rpmCalls.count name ≤ 1) (h2 : RpmCalledCached name st) :
    (st.rpmCalls ++ [fo]).count name ≤ 1 := by
  by_cases hfo : fo = name
  · subst hfo
    have hnotin : fo ∉ st.rpmCalls := by
      intro hin
      have := h2 hin
      rw [hnone] at this
      simp at this
    have hc0 : st.rpmCalls.count fo = 0 := List.count_eq_zero.mpr hnotin
    simp [List.count_append, hc0]
  · have : List.count name [fo] = 0 := by
      apply List.count_eq_zero.mpr
      simp
      exact fun h => hfo h.symm
    simp [List.count_append, this]
    omega

/-- Resolving one placeholder lowers `get_depth` by at most one (only the
recursive `get` of a plain placeholder can lower it at all). -/
theorem resolveOne_depth (ctx : Ctx) (getFn : St → String → String → GetRes × St)
    (hget : ∀ st' s o, st'.get_depth - 1 ≤ ((getFn st' s o).2).get_depth)
    (sec opt fs fo : String) (st : St) :
    st.get_depth - 1 ≤ ((resolveOne ctx getFn sec opt fs fo st).2).get_depth := by
  unfold resolveOne
  repeat' split
  all_goals simp_all

/-- The interpolation loop lowers `get_depth` by at most one: each match
first raises it by one and resolution lowers it by at most one, and the
single decrement happens only on normal return. -/
theorem interpLoopWith_depth (ctx : Ctx) (getFn : St → String → String → GetRes × St)
    (hget : ∀ st' s o, st'.get_depth - 1 ≤ ((getFn st' s o).2).get_depth)
    (sec opt : String) (ms : List (String × String)) :
    ∀ st ret, st.get_depth - 1 ≤ ((interpLoopWith ctx getFn sec opt ms st ret).2).get_depth := by
  induction ms with
  | nil => intro st ret; simp [interpLoopWith]
  | cons m rest ih =>
    intro st ret
    obtain ⟨fs, fo⟩ := m
    simp only [interpLoopWith]
    split
    · rcases hres : resolveOne ctx getFn sec opt fs fo { st with get_depth := st.get_depth + 1 }
        with ⟨r, st2⟩
      have hd := resolveOne_depth ctx getFn hget sec opt fs fo
        { st with get_depth := st.get_depth + 1 }
      rw [hres] at hd
      simp only at hd
      cases r with
      | ok sub =>
        have := ih st2 (pyReplace ret (placeholderText fs fo) sub)
        simp only [hres]
        omega
      | noOption o s => simp only [hres]; omega
      | interpErr s o m' => simp only [hres]; omega
      | depthErr o s => simp only [hres]; omega
      | calledProcessError rc => simp only [hres]; omega
      | fuelOut => simp only [hres]; omega
    · simp; omega

/-- A `Config.get` call lowers `get_depth` by at most one. -/
theorem configGet_depth (ctx : Ctx) :
    ∀ fuel st sec opt, st.get_depth - 1 ≤ ((Config.get ctx fuel st sec opt).2).get_depth := by
  intro fuel
  induction fuel with
  | zero => intro st sec opt; simp [Config.get]
  | succ f ih =>
    intro st sec opt
    simp only [Config.get]
    cases hraw : ctx.raw sec opt with
    | none => simp
    | some ret =>
      exact interpLoopWith_depth ctx (Config.get ctx f) (fun st' s o => ih st' s o) sec opt
        (findall ret) st ret

/-- Resolution of one placeholder only reports fuel exhaustion if the
recursive `get` it delegates to does. -/
theorem resolveOne_no_fuelOut (ctx : Ctx) (getFn : St → String → String → GetRes × St)
    (sec opt fs fo : String) (st : St)
    (hf : ∀ s o, (getFn st s o).1 ≠ .fuelOut) :
    (resolveOne ctx getFn sec opt fs fo st).1 ≠ .fuelOut := by
  unfold resolveOne
  repeat' split
  all_goals simp_all

/-- The interpolation loop never exhausts its fuel when the remaining fuel
dominates the room left below the depth limit: recursion is only entered with
the incremented counter strictly below `MAX_INTERPOLATION_DEPTH` = 10, and
the counter never sinks below its entry value while the loop runs. -/
theorem interpLoopWith_no_fuelOut (ctx : Ctx) (getFn : St → String → String → GetRes × St)
    (f : Nat)
    (hdep : ∀ st' s o, st'.get_depth - 1 ≤ ((getFn st' s o).2).get_depth)
    (hf : ∀ (st' : St) s o, st'.get_depth ≤ 9 → 11 ≤ st'.get_depth + (f : Int) →
      (getFn st' s o).1 ≠ .fuelOut)
    (sec opt : String) (ms : List (String × String)) :
    ∀ st ret, 10 ≤ st.get_depth + (f : Int) →
      (interpLoopWith ctx getFn sec opt ms st ret).1 ≠ .fuelOut := by
  induction ms with
  | nil => intro st ret _; simp [interpLoopWith]
  | cons m rest ih =>
    intro st ret hcond
    obtain ⟨fs, fo⟩ := m
    simp only [interpLoopWith]
    split
    · rename_i hguard
      simp only [MAX_INTERPOLATION_DEPTH] at hguard
      rcases hres : resolveOne ctx getFn sec opt fs fo { st with get_depth := st.get_depth + 1 }
        with ⟨r, st2⟩
      have hne : r ≠ .fuelOut := by
        have := resolveOne_no_fuelOut ctx getFn sec opt fs fo
          { st with get_depth := st.get_depth + 1 }
          (fun s o => hf _ s o (by simp only; omega) (by simp only; omega))
        rw [hres] at this
        exact this
      have hd2 : st.get_depth ≤ st2.get_depth := by
        have := resolveOne_depth ctx getFn hdep sec opt fs fo
          { st with get_depth := st.get_depth + 1 }
        rw [hres] at this
        simp only at this
        omega
      cases r with
      | ok sub =>
        simp only [hres]
        exact ih st2 (pyReplace ret (placeholderText fs fo) sub) (by omega)
      | noOption o s => simp only [hres]; simp
      | interpErr s o m' => simp only [hres]; simp
      | depthErr o s => simp only [hres]; simp
      | calledProcessError rc => simp only [hres]; simp
      | fuelOut => simp only [hres]; exact fun h => hne rfl
    · simp

/-- `Config.get` never exhausts its fuel when the fuel exceeds the room left
below the interpolation depth limit — the model's rendering of the fact that
the depth guard bounds the recursion of the source. -/
theorem configGet_no_fuelOut (ctx : Ctx) :
    ∀ (fuel : Nat) (st : St) sec opt, 1 ≤ fuel → 11 ≤ st.get_depth + (fuel : Int) →
      (Config.get ctx fuel st sec opt).1 ≠ .fuelOut := by
  intro fuel
  induction fuel with
  | zero => intro st sec opt h _; exact absurd h (by omega)
  | succ f ih =>
    intro st sec opt _ hcond
    simp only [Config.get]
    cases hraw : ctx.raw sec opt with
    | none => simp
    | some ret =>
      refine interpLoopWith_no_fuelOut ctx (Config.get ctx f) f
        (fun st' s o => configGet_depth ctx f st' s o) ?_ sec opt (findall ret) st ret ?_
      · intro st' s o h9 h11
        rcases Nat.eq_zero_or_pos f with hz | hp
        · subst hz
          simp only [Nat.cast_zero, add_zero] at h11
          exact absurd h11 (by omega)
        · exact ih st' s o hp h11
      · push_cast at hcond
        omega

/-- Resolution of one placeholder preserves the at-most-one-invocation bound,
and on success also the `RpmCalledCached` invariant (an invocation is guarded
by the cache-membership test of line 88, and its result is stored at
line 90). -/
theorem resolveOne_rpm (ctx : Ctx) (getFn : St → String → String → GetRes × St)
    (sec opt fs fo name : String) (st : St)
    (hget : ∀ (st' : St) s o, st'.rpmCalls.count name ≤ 1 → RpmCalledCached name st' →
      ((getFn st' s o).2.rpmCalls.count name ≤ 1 ∧
        (∀ v, (getFn st' s o).1 = .ok v → RpmCalledCached name (getFn st' s o).2)))
    (h1 : st.rpmCalls.count name ≤ 1) (h2 : RpmCalledCached name st) :
    (resolveOne ctx getFn sec opt fs fo st).2.rpmCalls.count name ≤ 1 ∧
      (∀ v, (resolveOne ctx getFn sec opt fs fo st).1 = .ok v →
        RpmCalledCached name (resolveOne ctx getFn sec opt fs fo st).2) := by
  unfold resolveOne
  split
  · split
    · split
      · exact ⟨h1, fun v _ => h2⟩
      · exact ⟨h1, fun v _ => h2⟩
    · exact ⟨h1, fun v _ => h2⟩
  · split
    · split <;> exact ⟨h1, fun v _ => h2⟩
    · split
      · split
        · exact ⟨h1, fun v _ => h2⟩
        · rename_i hnone
          split
          · refine ⟨count_calls_append st fo name hnone h1 h2, fun v _ => ?_⟩
            intro hin
            simp only at hin ⊢
            rw [lookup_append]
            by_cases hfo : name = fo
            · subst hfo
              simp [List.lookup]
            · rcases List.mem_append.mp hin with h | h
              · have := h2 h
                cases hm : st.rpm_macros.lookup name with
                | none => rw [hm] at this; simp at this
                | some w => simp [hm]
              · simp at h
                exact absurd h hfo
          · exact ⟨count_calls_append st fo name hnone h1 h2, fun v hv => nomatch hv⟩
          · exact ⟨count_calls_append st fo name hnone h1 h2, fun v hv => nomatch hv⟩
      · exact hget st _ _ h1 h2

/-- The interpolation loop preserves the invocation bound and, on success,
the cache invariant. -/
theorem interpLoopWith_rpm (ctx : Ctx) (getFn : St → String → String → GetRes × St)
    (sec opt name : String)
    (hget : ∀ (st' : St) s o, st'.rpmCalls.count name ≤ 1 → RpmCalledCached name st' →
      ((getFn st' s o).2.rpmCalls.count name ≤ 1 ∧
        (∀ v, (getFn st' s o).1 = .ok v → RpmCalledCached name (getFn st' s o).2)))
    (ms : List (String × String)) :
    ∀ (st : St) ret, st.rpmCalls.count name ≤ 1 → RpmCalledCached name st →
      ((interpLoopWith ctx getFn sec opt ms st ret).2.rpmCalls.count name ≤ 1 ∧
        (∀ v, (interpLoopWith ctx getFn sec opt ms st ret).1 = .ok v →
          RpmCalledCached name (interpLoopWith ctx getFn sec opt ms st ret).2)) := by
  induction ms with
  | nil =>
    intro st ret h1 h2
    exact ⟨h1, fun v _ => h2⟩
  | cons m rest ih =>
    intro st ret h1 h2
    obtain ⟨fs, fo⟩ := m
    simp only [interpLoopWith]
    split
    · rcases hres : resolveOne ctx getFn sec opt fs fo { st with get_depth := st.get_depth + 1 }
        with ⟨r, st2⟩
      have hinv := resolveOne_rpm ctx getFn sec opt fs fo name
        { st with get_depth := st.get_depth + 1 } hget h1 h2
      rw [hres] at hinv
      simp only at hinv
      cases r with
      | ok sub =>
        simp only [hres]
        exact ih st2 _ hinv.1 (hinv.2 sub rfl)
      | noOption o s => simpa only [hres] using ⟨hinv.1, fun v hv => nomatch hv⟩
      | interpErr s o m' => simpa only [hres] using ⟨hinv.1, fun v hv => nomatch hv⟩
      | depthErr o s => simpa only [hres] using ⟨hinv.1, fun v hv => nomatch hv⟩
      | calledProcessError rc => simpa only [hres] using ⟨hinv.1, fun v hv => nomatch hv⟩
      | fuelOut => simpa only [hres] using ⟨hinv.1, fun v hv => nomatch hv⟩
    · exact ⟨h1, fun v hv => nomatch hv⟩

/-- A `Config.get` call preserves the invocation bound and, on success, the
cache invariant. -/
theorem configGet_rpm (ctx : Ctx) (name : String) :
    ∀ (fuel : Nat) (st : St) sec opt, st.rpmCalls.count name ≤ 1 → RpmCalledCached name st →
      ((Config.get ctx fuel st sec opt).2.rpmCalls.count name ≤ 1 ∧
        (∀ v, (Config.get ctx fuel st sec opt).1 = .ok v →
          RpmCalledCached name (Config.get ctx fuel st sec opt).2)) := by
  intro fuel
  induction fuel with
  | zero => intro st sec opt h1 h2; exact ⟨h1, fun v hv => nomatch hv⟩
  | succ f ih =>
    intro st sec opt h1 h2
    simp only [Config.get]
    cases hraw : ctx.raw sec opt with
    | none => exact ⟨h1, fun v hv => nomatch hv⟩
    | some ret =>
      exact interpLoopWith_rpm ctx (Config.get ctx f) sec opt name
        (fun st' s o => ih st' s o) (findall ret) st ret h1 h2

/-- A whole run of get calls and deep copies keeps the per-name invocation
count at most one: a run continues past a `get` only when it succeeded, in
which case the invoked name is cached and never invoked again. -/
theorem runEvents_rpm (ctx : Ctx) (fuel : Nat) (name : String) :
    ∀ (events : List RunEvent) (st : St),
      st.rpmCalls.count name ≤ 1 → RpmCalledCached name st →
      (runEvents ctx fuel st events).rpmCalls.count name ≤ 1 := by
  intro events
  induction events with
  | nil => intro st h1 _; exact h1
  | cons e rest ih =>
    intro st h1 h2
    cases e with
    | deepcopy => exact ih _ h1 h2
    | get sec opt =>
      simp only [runEvents]
      rcases hres : Config.get ctx fuel st sec opt with ⟨r, st'⟩
      have hinv := configGet_rpm ctx name fuel st sec opt h1 h2
      rw [hres] at hinv
      simp only at hinv
      cases r with
      | ok v => exact ih st' hinv.1 (hinv.2 v rfl)
      | noOption o s => exact hinv.1
      | interpErr s o m' => exact hinv.1
      | depthErr o s => exact hinv.1
      | calledProcessError rc => exact hinv.1
      | fuelOut => exact hinv.1

/-! ## Claim theorems -/

/-- C1 (counterexample): the pipeline failure report of `run_pipe` is *not*
governed by the last command's exit status: a pipeline whose first command
exits 0 and whose last exits 1 does not raise, while one whose first exits 1
and whose last exits 0 does. -/
theorem runPipe_last_status_counterexample :
    runPipeRaises 0 [1] = false ∧ runPipeRaises 1 [0] = true := by decide

/-- C1 (amended): for every pipeline of at least two commands in which all
processes spawn, `run_pipe` raises `RunError` iff the *first* command's exit
status is non-zero; the later stages' statuses (including the last, collected
by `last_proc.wait ()` at line 394 per the TODO of lines 389-393) are
overwritten and never surfaced. -/
theorem runPipe_fails_iff_first_nonzero (first : Int) (rest : List Int) (h : rest ≠ []) :
    runPipeRaises first rest = true ↔ first ≠ 0 := by
  simp [runPipeRaises, runPipeRc, bne_iff_ne]

/-- Witness for `runPipe_fails_iff_first_nonzero` at a two-command
pipeline. -/
theorem runPipe_fails_iff_first_nonzero_witness :
    ([(1 : Int)] ≠ []) ∧ (runPipeRaises 3 [1] = true ↔ (3 : Int) ≠ 0) :=
  ⟨by decide, runPipe_fails_iff_first_nonzero 3 [1] (by decide)⟩

/-- C2: resolution of configuration placeholders always terminates — with
fuel at least `11 - get_depth` the model never reports fuel exhaustion,
because each plain-placeholder recursion strictly raises the shared depth
counter, which the guard at line 80 bounds by
`MAX_INTERPOLATION_DEPTH` = 10 — and a directly self-referencing value
fails with `InterpolationDepthError` naming the offending option and
section (line 100). -/
theorem config_get_depth_protection :
    (∀ (ctx : Ctx) (fuel : Nat) (st : St) sec opt, 1 ≤ fuel →
        11 ≤ st.get_depth + (fuel : Int) →
        (Config.get ctx fuel st sec opt).1 ≠ .fuelOut)
    ∧ (Config.get ctxSelf 40 ⟨0, [], []⟩ "sec" "self").1 = .depthErr "self" "sec" :=
  ⟨fun ctx fuel st sec opt h1 h2 => configGet_no_fuelOut ctx fuel st sec opt h1 h2, by decide⟩

/-- Witness for `config_get_depth_protection` at the self-referencing
fixture with fuel 11. -/
theorem config_get_depth_protection_witness :
    (Config.get ctxSelf 11 ⟨0, [], []⟩ "sec" "self").1 ≠ .fuelOut :=
  config_get_depth_protection.1 ctxSelf 11 ⟨0, [], []⟩ "sec" "self" (by decide) (by decide)

/-- C3: the from/to resolution of `move_cmd` on the group
`[dev, staging, public]`: with a summary only in `dev` it yields
`from = dev, to = staging`; with a summary only in `staging` it yields
`from = staging, to = public`; but with the summary in the *last* repository
the guard `i < len (repos)` at line 1012 passes and `repos [i + 1]` raises
an uncaught `IndexError` instead of the `Error ('No repository after ...')`
of the unreachable line 1015. -/
theorem move_resolve_from_to_eval :
    resolveFromTo false ["dev", "staging", "public"] (fun r => r == "dev") none none
      = .ok (some "dev") "staging"
    ∧ resolveFromTo false ["dev", "staging", "public"] (fun r => r == "staging") none none
      = .ok (some "staging") "public"
    ∧ resolveFromTo false ["dev", "staging", "public"] (fun r => r == "public") none none
      = .indexError := by decide

/-- C4 (counterexample): a crash before the summary rename does *not* always
leave the previous summary intact: after step 2 (`remove_path (log_base)`,
line 822) the previous summary is already gone although the rename (step 6)
has not happened. -/
theorem build_summary_crash_counterexample :
    (buildAfter cNewSummary cBuildFS0 2).summaryFile = none
    ∧ cBuildFS0.summaryFile ≠ none := by decide

/-- C4 (amended): the summary is staged entirely at the temporary path and
appears at the final path exactly at the rename of line 918 (never partial,
and only after the artifacts were stat'ed during the tmp write); however the
previous summary is deleted by `remove_path (log_base)` at build start, so a
crash before the rename leaves the previous summary only if it happens before
step 2, and no summary at all afterwards. -/
theorem build_summary_commit_point (k : Nat) (hk : k ≤ 6) :
    ((buildAfter cNewSummary cBuildFS0 k).summaryFile = some cNewSummary ↔ k = 6)
    ∧ ((buildAfter cNewSummary cBuildFS0 k).tmpFile ≠ none ↔ k = 5)
    ∧ ((buildAfter cNewSummary cBuildFS0 k).summaryFile = some cOldSummary ↔ k ≤ 1) := by
  revert hk
  revert k
  decide

/-- Witness for `build_summary_commit_point` at crash point 3. -/
theorem build_summary_commit_point_witness :
    ((buildAfter cNewSummary cBuildFS0 3).summaryFile = some cNewSummary ↔ 3 = 6)
    ∧ ((buildAfter cNewSummary cBuildFS0 3).tmpFile ≠ none ↔ 3 = 5)
    ∧ ((buildAfter cNewSummary cBuildFS0 3).summaryFile = some cOldSummary ↔ 3 ≤ 1) :=
  build_summary_commit_point 3 (by decide)

/-- C5: mutating the recorded size (or mtime) of an artifact makes the next
`read_build_summary` fail at that line — but the raised `Error` carries the
summary path and line number only; its message is the literal string
`'\nRecorded size differs from actual for `%s`'` with the `%s` placeholder
left unformatted (lines 748-751), so the artifact file is not named.  An
unmodified artifact passes. -/
theorem read_summary_mismatch_eval :
    checkArtifactLines "LOG/summary" cStat cResolvePath 2 [] [⟨"os2", "x.rpm", 100, 7⟩]
      = .error ⟨some "LOG/summary:3", "\nRecorded size differs from actual for `%s`", none⟩
    ∧ checkArtifactLines "LOG/summary" cStat cResolvePath 2 [] [⟨"os2", "x.rpm", 99, 5⟩]
      = .error ⟨some "LOG/summary:3", "\nRecorded mtime differs from actual for `%s`", none⟩
    ∧ checkArtifactLines "LOG/summary" cStat cResolvePath 2 [] [⟨"os2", "x.rpm", 100, 5⟩]
      = .ok (3, [("os2", .many ["repo/rpm/os2/x.rpm"])]) := by decide

/-- C6: `run_pipe_log` writes the bracketed start and end lines regardless of
success or failure, but on failure the `raise Error (..., log_file =
log_file)` of lines 455-458 passes a keyword that `Error.__init__`
(line 127) does not accept, so a `TypeError` (unexpected keyword argument
`log_file`) escapes instead of an `Error` carrying the log path. -/
theorem run_pipe_log_failure_eval :
    run_pipe_log "T1" "T2" "0.5" [["false"]] (.error ⟨"false", "exit code 1"⟩)
      = (["[T1, false]", "[T2, exit code 1, 0.5 s]"], .typeErrorUnexpectedKeyword "log_file")
    ∧ run_pipe_log "T1" "T2" "0.5" [["a", "x"], ["b"]] (.ok ["w"])
      = (["[T1, a x | b]", "[T2, exit code 0, 0.5 s]"], .ok ["w"]) := by decide

/-- C7: a `${SHELL:...}` placeholder whose command exits non-zero makes
`subprocess.check_output` raise `CalledProcessError`, which `shell_output`
(catching only `OSError`, lines 308-312) does not convert to `RunError` and
`Config.get` (catching only `RunError`, line 96) does not convert to
`InterpolationError` — the exception escapes uncaught; only a command that
cannot start (`OSError`) produces the documented `InterpolationError`. -/
theorem shell_placeholder_nonzero_exit_eval :
    (Config.get ctxShellCpe 3 ⟨0, [], []⟩ "s" "k").1 = .calledProcessError 3
    ∧ (Config.get ctxShellOs 3 ⟨0, [], []⟩ "s" "k").1
      = .interpErr "s" "k" (interpFailMsg "SHELL:" "boom" "cannot start" (joinChars "boom")) := by
  decide

/-- C8: because the copy loop of lines 1059-1063 sits inside the key loop of
line 1049, the accumulated entries are re-copied on every later key: for a
summary with `srpm`, `zip` and one arch the source RPM is passed to
`shutil.copy2` three times.  The destination-directory check still guards
every copy: a missing destination directory raises
`Error (dst, 'Not a directory')` and directories are never created. -/
theorem move_copy_duplication_eval :
    moveCopies cToRepoCfg cRpms
      = [("S.src.rpm", "/to/srpm"),
         ("S.src.rpm", "/to/srpm"), ("Z.zip", "/to/zip"),
         ("S.src.rpm", "/to/srpm"), ("Z.zip", "/to/zip"), ("A.os2.rpm", "/to/rpm/os2")]
    ∧ (moveCopies cToRepoCfg cRpms).count ("S.src.rpm", "/to/srpm") = 3
    ∧ performCopies (fun d => d != "/to/zip") (moveCopies cToRepoCfg cRpms)
      = .error ⟨some "/to/zip", "Not a directory", none⟩ := by decide

/-- C9 (counterexample): a successful `Config.get` call does *not* leave
`get_depth` unchanged: resolving the placeholder-free value `abc` from
depth 0 returns with the counter at -1, because the decrement of line 102
runs once per call regardless of the number of matches. -/
theorem get_depth_not_restored_counterexample :
    (Config.get ctxPlain 3 ⟨0, [], []⟩ "s" "k").1 = .ok "abc"
    ∧ (Config.get ctxPlain 3 ⟨0, [], []⟩ "s" "k").2.get_depth ≠ 0 := by decide

/-- C9 (amended): `Config.get` increments `get_depth` once per placeholder
match but decrements it exactly once per returning call (line 102, outside
the match loop); in particular a call resolving a value with no placeholder
matches returns with the counter one *below* its entry value, so the counter
is not restored across calls. -/
theorem get_decrements_once_on_return (ctx : Ctx) (fuel : Nat) (st : St) (sec opt v : String)
    (hraw : ctx.raw sec opt = some v) (hm : findall v = []) :
    Config.get ctx (fuel + 1) st sec opt = (.ok v, { st with get_depth := st.get_depth - 1 }) := by
  simp [Config.get, hraw, hm, interpLoopWith]

/-- Witness for `get_decrements_once_on_return` on the placeholder-free
fixture. -/
theorem get_decrements_once_on_return_witness :
    Config.get ctxPlain 3 ⟨0, [], []⟩ "s" "k"
      = (.ok "abc", { (⟨0, [], []⟩ : St) with get_depth := (⟨0, [], []⟩ : St).get_depth - 1 }) :=
  get_decrements_once_on_return ctxPlain 2 ⟨0, [], []⟩ "s" "k" "abc" rfl (by decide)

/-- C10: over any whole run (any sequence of `Config.get` calls and
`deepcopy` events, which share the `rpm_macros` dictionary), the external
builder is invoked for a given macro name at most once — the cache is
consulted before invoking (line 88) and the result stored (line 90) — and a
macro that resolves to the empty string is still cached and not re-evaluated,
also across a `deepcopy`. -/
theorem rpm_macro_evaluated_at_most_once :
    (∀ (ctx : Ctx) (fuel : Nat) (events : List RunEvent) (name : String) (d : Int)
        (cache : List (String × String)),
        (runEvents ctx fuel ⟨d, cache, []⟩ events).rpmCalls.count name ≤ 1)
    ∧ runEvents ctxRpmEmpty 6 ⟨0, [], []⟩ [.get "s" "k", .deepcopy, .get "s" "k"]
      = ⟨0, [("m", "")], ["m"]⟩ :=
  ⟨fun ctx fuel events name d cache =>
      runEvents_rpm ctx fuel name events ⟨d, cache, []⟩ (by simp)
        (fun h => absurd h (List.not_mem_nil name)),
    by decide⟩

end RpmbuildBot2
